import Mathlib

/-!
A shallow embedding of `src/python/dslib.py`: the `Message` envelope, the
per-invocation `Context` with its three effect logs, and the dynamic-typing
and JSON behaviour of the Python runtime that the code relies on
(`isinstance` checks, `json.loads`, `json.dumps`), together with theorems
settling the specification claims about them.
-/

namespace DSLib

/-- Python values produced by `json.loads` / consumed by `json.dumps`:
JSON-representable data.  Python keeps `int` and `float` distinct, so the
model does too; `float` is modelled as an exact rational (every float the
parser can produce is a finite decimal). -/
inductive JsonValue where
  | null : JsonValue
  | bool (b : Bool) : JsonValue
  | int (n : ℤ) : JsonValue
  | float (q : ℚ) : JsonValue
  | str (s : String) : JsonValue
  | arr (elems : List JsonValue) : JsonValue
  | obj (members : List (String × JsonValue)) : JsonValue
deriving Repr

/-- Dynamically typed Python runtime values, as far as the argument
type-checks in `dslib.py` can observe them.  `bool` is a separate
constructor because Python's `bool` is a distinct type that subclasses
`int`. -/
inductive PyVal where
  | str (s : String) : PyVal
  | int (n : ℤ) : PyVal
  | float (q : ℚ) : PyVal
  | bool (b : Bool) : PyVal
  | none : PyVal
deriving DecidableEq, Repr

/-- `isinstance(v, str)`. -/
def PyVal.isStr : PyVal → Bool
  | .str _ => true
  | _ => false

/-- `isinstance(v, (int, float))`.  Python's `bool` subclasses `int`, so
booleans pass this check. -/
def PyVal.isNumeric : PyVal → Bool
  | .int _ => true
  | .float _ => true
  | .bool _ => true
  | _ => false

/-- `str(type(v))`, as interpolated into the error messages of `dslib.py`
(`\x27` is the single quote Python prints around the type name). -/
def PyVal.typeName : PyVal → String
  | .str _ => "<class \x27str\x27>"
  | .int _ => "<class \x27int\x27>"
  | .float _ => "<class \x27float\x27>"
  | .bool _ => "<class \x27bool\x27>"
  | .none => "<class \x27NoneType\x27>"

/-- The error kinds the embedded code can raise:  `TypeError` from the
argument checks, `KeyError` from `Message.__getitem__`, and
`json.JSONDecodeError` (the ParseError kind) from `json.loads`. -/
inductive PyError where
  | typeError (msg : String) : PyError
  | keyError (key : String) : PyError
  | jsonDecodeError : PyError
deriving DecidableEq, Repr

/-- Whether an optional raised error is of the TypeError kind. -/
def optIsTypeError : Option PyError → Bool
  | some (.typeError _) => true
  | _ => false

/-! ### A model of `json.dumps`

`Context.send` and `Context.send_local` serialize the payload with
`json.dumps(msg._data)` (default options: ASCII-only output, separators
`", "` and `": "`).  The exact text matters less to the claims than the
fact that serialization happens eagerly at call time, but the function is
modelled faithfully on the structure json.dumps emits. -/

/-- Lower-case hex digit. -/
def hexDigit (n : Nat) : Char :=
  if n < 10 then Char.ofNat (48 + n) else Char.ofNat (97 + (n - 10))

/-- Four-digit hex rendering of a code unit, as in a `\uXXXX` escape. -/
def hex4 (n : Nat) : String :=
  String.mk [hexDigit (n / 4096 % 16), hexDigit (n / 256 % 16),
             hexDigit (n / 16 % 16), hexDigit (n % 16)]

/-- How `json.dumps` (with its default `ensure_ascii=True`) renders one
character inside a string literal. -/
def escChar (c : Char) : String :=
  if c = '"' then "\\\""
  else if c = '\\' then "\\\\"
  else if c = '\n' then "\\n"
  else if c = '\r' then "\\r"
  else if c = '\t' then "\\t"
  else if c.toNat = 8 then "\\b"
  else if c.toNat = 12 then "\\f"
  else if c.toNat < 32 then "\\u" ++ hex4 c.toNat
  else if c.toNat ≤ 126 then String.mk [c]
  else if c.toNat ≤ 65535 then "\\u" ++ hex4 c.toNat
  else
    "\\u" ++ hex4 (55296 + (c.toNat - 65536) / 1024) ++
    "\\u" ++ hex4 (56320 + (c.toNat - 65536) % 1024)

/-- A JSON string literal, quotes included. -/
def dumpsString (s : String) : String :=
  "\"" ++ String.join (s.data.map escChar) ++ "\""

/-- Count how many times `p` divides `d`, returning the count and the
quotient (fuel-driven). -/
def stripFactor (p : Nat) : Nat → Nat → Nat × Nat
  | 0, d => (0, d)
  | fuel + 1, d =>
      if d % p = 0 ∧ 1 < p ∧ 0 < d then
        let (c, r) := stripFactor p fuel (d / p)
        (c + 1, r)
      else (0, d)

/-- Decimal rendering of floats.  All floats produced by the JSON parser
are finite decimals (denominator `2^a * 5^b`), printed exactly — matching
Python's shortest-round-trip `repr` on such values; other rationals cannot
arise from the embedded code and get a fraction fallback. -/
def floatRepr (q : ℚ) : String :=
  let n := q.num.natAbs
  let d := q.den
  let sign := if q.num < 0 then "-" else ""
  let (a, d2) := stripFactor 2 d d
  let (b, d25) := stripFactor 5 d2 d2
  if d25 = 1 then
    let k := max a b
    if k = 0 then sign ++ toString n ++ ".0"
    else
      let scaled := n * 10 ^ k / d
      let digits := toString scaled
      let digits := String.mk (List.replicate (k + 1 - digits.length) '0') ++ digits
      let ip := digits.take (digits.length - k)
      let fp := digits.drop (digits.length - k)
      sign ++ ip ++ "." ++ fp
  else sign ++ toString n ++ "/" ++ toString d

mutual

/-- `json.dumps` with default options. -/
def dumps : JsonValue → String
  | .null => "null"
  | .bool true => "true"
  | .bool false => "false"
  | .int n => toString n
  | .float q => floatRepr q
  | .str s => dumpsString s
  | .arr elems => "[" ++ dumpsElems elems ++ "]"
  | .obj members => "\x7b" ++ dumpsMembers members ++ "\x7d"

def dumpsElems : List JsonValue → String
  | [] => ""
  | [v] => dumps v
  | v :: rest => dumps v ++ ", " ++ dumpsElems rest

def dumpsMembers : List (String × JsonValue) → String
  | [] => ""
  | [(k, v)] => dumpsString k ++ ": " ++ dumps v
  | (k, v) :: rest => dumpsString k ++ ": " ++ dumps v ++ ", " ++ dumpsMembers rest

end

/-! ### A model of `json.loads`

`Message.from_json` delegates parsing entirely to `json.loads`.  The model
is a fuel-driven recursive-descent parser over the character list,
following the strict JSON grammar that `json.loads` implements: the four
JSON whitespace characters, strict string escapes (unescaped control
characters rejected), no leading zeros in numbers, `int` for integer
literals and `float` once a fraction or exponent appears, and — crucially
for claim C3 — **any** JSON value at top level, not only objects.
(Non-finite literals `NaN`/`Infinity`, which CPython additionally accepts,
have no rational counterpart and are left out of the model.) -/

/-- The characters `json.loads` skips between tokens. -/
def isJsonWs (c : Char) : Bool :=
  c = ' ' || c = '\t' || c = '\n' || c = '\r'

/-- Drop leading JSON whitespace. -/
def skipWs : List Char → List Char
  | [] => []
  | c :: cs => if isJsonWs c then skipWs cs else c :: cs

/-- Value of a hex digit, if it is one. -/
def hexVal (c : Char) : Option Nat :=
  if '0' ≤ c ∧ c ≤ '9' then some (c.toNat - 48)
  else if 'a' ≤ c ∧ c ≤ 'f' then some (c.toNat - 87)
  else if 'A' ≤ c ∧ c ≤ 'F' then some (c.toNat - 55)
  else none

/-- Opening and closing braces as characters (for the object syntax). -/
def lbrace : Char := Char.ofNat 123

def rbrace : Char := Char.ofNat 125

/-- Parse the body of a JSON string literal (the opening quote already
consumed), handling the strict escape set. -/
def parseStringBody : Nat → List Char → List Char → Option (String × List Char)
  | 0, _, _ => Option.none
  | _ + 1, [], _ => Option.none
  | fuel + 1, c :: rest, acc =>
    if c = '"' then some (String.mk acc.reverse, rest)
    else if c = '\\' then
      match rest with
      | [] => Option.none
      | e :: rest2 =>
        if e = '"' then parseStringBody fuel rest2 ('"' :: acc)
        else if e = '\\' then parseStringBody fuel rest2 ('\\' :: acc)
        else if e = '/' then parseStringBody fuel rest2 ('/' :: acc)
        else if e = 'b' then parseStringBody fuel rest2 (Char.ofNat 8 :: acc)
        else if e = 'f' then parseStringBody fuel rest2 (Char.ofNat 12 :: acc)
        else if e = 'n' then parseStringBody fuel rest2 ('\n' :: acc)
        else if e = 'r' then parseStringBody fuel rest2 ('\r' :: acc)
        else if e = 't' then parseStringBody fuel rest2 ('\t' :: acc)
        else if e = 'u' then
          match rest2 with
          | h1 :: h2 :: h3 :: h4 :: rest3 =>
            match hexVal h1, hexVal h2, hexVal h3, hexVal h4 with
            | some a, some b, some c3, some d =>
                parseStringBody fuel rest3
                  (Char.ofNat (a * 4096 + b * 256 + c3 * 16 + d) :: acc)
            | _, _, _, _ => Option.none
          | _ => Option.none
        else Option.none
    else if c.toNat < 32 then Option.none
    else parseStringBody fuel rest (c :: acc)

/-- Split off a maximal run of decimal digits. -/
def takeDigits : List Char → List Char × List Char
  | [] => ([], [])
  | c :: cs =>
      if c.isDigit then
        let (d, r) := takeDigits cs
        (c :: d, r)
      else ([], c :: cs)

/-- Numeric value of a digit run. -/
def digitsVal (ds : List Char) : Nat :=
  ds.foldl (fun a c => a * 10 + (c.toNat - 48)) 0

/-- Assemble a parsed JSON number.  Integer literals become Python `int`;
a fraction or exponent part makes the result a Python `float`. -/
def mkJsonNumber (neg : Bool) (ipart : Nat) (fds : List Char) (hasFrac : Bool)
    (ex : Option ℤ) : JsonValue :=
  match hasFrac, ex with
  | false, Option.none =>
      .int (if neg then -(ipart : ℤ) else (ipart : ℤ))
  | _, _ =>
      let base : ℚ := (ipart : ℚ) + (digitsVal fds : ℚ) / ((10 : ℚ) ^ fds.length)
      let e : ℤ := ex.getD 0
      .float ((if neg then (-1 : ℚ) else 1) * base * (10 : ℚ) ^ e)

/-- Parse the optional exponent part and finish the number. -/
def parseExpPart (neg : Bool) (ipart : Nat) (fds : List Char) (hasFrac : Bool) :
    List Char → Option (JsonValue × List Char)
  | e :: cs =>
    if e = 'e' ∨ e = 'E' then
      let (eneg, cs1) :=
        match cs with
        | '-' :: r => (true, r)
        | '+' :: r => (false, r)
        | r => (false, r)
      let (eds, cs2) := takeDigits cs1
      if eds = [] then Option.none
      else
        let ev : ℤ := if eneg then -(digitsVal eds : ℤ) else (digitsVal eds : ℤ)
        some (mkJsonNumber neg ipart fds hasFrac (some ev), cs2)
    else some (mkJsonNumber neg ipart fds hasFrac Option.none, e :: cs)
  | [] => some (mkJsonNumber neg ipart fds hasFrac Option.none, [])

/-- Parse a JSON number (strict grammar: optional minus, no leading
zeros, optional fraction with at least one digit, optional exponent). -/
def parseNumber (cs : List Char) : Option (JsonValue × List Char) :=
  let (neg, cs1) := match cs with | '-' :: r => (true, r) | _ => (false, cs)
  let (ids, cs2) := takeDigits cs1
  match ids with
  | [] => Option.none
  | '0' :: _ :: _ => Option.none
  | _ =>
    let ipart := digitsVal ids
    match cs2 with
    | '.' :: cs3 =>
        let (fds, cs4) := takeDigits cs3
        if fds = [] then Option.none
        else parseExpPart neg ipart fds true cs4
    | _ => parseExpPart neg ipart [] false cs2

/-- CPython dict insertion on an insertion-ordered association list: an
existing key is overwritten in place, a new key is appended at the end. -/
def dictSet : List (String × JsonValue) → String → JsonValue →
    List (String × JsonValue)
  | [], k, v => [(k, v)]
  | (k', v') :: rest, k, v =>
      if k' = k then (k, v) :: rest else (k', v') :: dictSet rest k v

/-- Match a literal keyword tail such as `rue` of `true`. -/
def dropLit : List Char → List Char → Option (List Char)
  | [], cs => some cs
  | l :: ls, c :: cs => if c = l then dropLit ls cs else Option.none
  | _ :: _, [] => Option.none

mutual

/-- Recursive-descent parse of one JSON value, leading whitespace
allowed; returns the remaining input. -/
def parseValue : Nat → List Char → Option (JsonValue × List Char)
  | 0, _ => Option.none
  | fuel + 1, cs =>
    match skipWs cs with
    | [] => Option.none
    | c :: rest =>
      if c = lbrace then
        match skipWs rest with
        | c2 :: rest2 =>
            if c2 = rbrace then some (.obj [], rest2)
            else parseMembers fuel (c2 :: rest2) []
        | [] => Option.none
      else if c = '[' then
        match skipWs rest with
        | c2 :: rest2 =>
            if c2 = ']' then some (.arr [], rest2)
            else parseElements fuel (c2 :: rest2) []
        | [] => Option.none
      else if c = '"' then
        match parseStringBody (fuel + 1) rest [] with
        | some (s, rest2) => some (.str s, rest2)
        | Option.none => Option.none
      else if c = 't' then
        match dropLit ['r', 'u', 'e'] rest with
        | some rest2 => some (.bool true, rest2)
        | Option.none => Option.none
      else if c = 'f' then
        match dropLit ['a', 'l', 's', 'e'] rest with
        | some rest2 => some (.bool false, rest2)
        | Option.none => Option.none
      else if c = 'n' then
        match dropLit ['u', 'l', 'l'] rest with
        | some rest2 => some (.null, rest2)
        | Option.none => Option.none
      else if c = '-' ∨ c.isDigit then parseNumber (c :: rest)
      else Option.none

/-- Parse the members of an object, positioned at the first character of a
key (a quote), accumulating into a Python dict: a repeated key overwrites
the earlier binding in place, as CPython's dict does. -/
def parseMembers : Nat → List Char → List (String × JsonValue) →
    Option (JsonValue × List Char)
  | 0, _, _ => Option.none
  | fuel + 1, cs, acc =>
    match skipWs cs with
    | '"' :: rest =>
      match parseStringBody (fuel + 1) rest [] with
      | some (k, rest2) =>
        match skipWs rest2 with
        | ':' :: rest3 =>
          match parseValue fuel rest3 with
          | some (v, rest4) =>
            let acc2 := dictSet acc k v
            match skipWs rest4 with
            | ',' :: rest5 => parseMembers fuel rest5 acc2
            | c :: rest5 => if c = rbrace then some (.obj acc2, rest5) else Option.none
            | [] => Option.none
          | Option.none => Option.none
        | _ => Option.none
      | Option.none => Option.none
    | _ => Option.none

/-- Parse the elements of an array, positioned at the first element. -/
def parseElements : Nat → List Char → List JsonValue →
    Option (JsonValue × List Char)
  | 0, _, _ => Option.none
  | fuel + 1, cs, acc =>
    match parseValue fuel cs with
    | some (v, rest) =>
      match skipWs rest with
      | ',' :: rest2 => parseElements fuel rest2 (acc ++ [v])
      | ']' :: rest2 => some (.arr (acc ++ [v]), rest2)
      | _ => Option.none
    | Option.none => Option.none

end

/-- `json.loads`: parse one JSON document, requiring only trailing
whitespace after the value; any failure is the JSONDecodeError
(ParseError) kind. -/
def jsonLoads (s : String) : Except PyError JsonValue :=
  match parseValue (s.data.length + 1) s.data with
  | some (v, rest) =>
      match skipWs rest with
      | [] => .ok v
      | _ :: _ => .error .jsonDecodeError
  | Option.none => .error .jsonDecodeError

/-! ### Heap of mutable payload objects

Python payload dicts are heap objects aliased by reference: a `Message`
holds a reference to its `_data`, and mutation through the message is
visible to every holder of the reference.  The heap is a store of
`JsonValue` cells addressed by allocation index; the effect logs, by
contrast, hold plain serialized strings, which is exactly what makes the
snapshot-isolation claim true. -/

structure Heap where
  cells : List JsonValue

/-- Dereference (reads of valid references only arise in the embedding). -/
def Heap.get (h : Heap) (r : Nat) : JsonValue :=
  h.cells.getD r .null

/-- Overwrite one cell. -/
def Heap.put (h : Heap) (r : Nat) (v : JsonValue) : Heap :=
  ⟨h.cells.set r v⟩

/-- Allocate a fresh cell, returning its reference. -/
def Heap.alloc (h : Heap) (v : JsonValue) : Heap × Nat :=
  (⟨h.cells ++ [v]⟩, h.cells.length)

/-! ### `Message` -/

/-- `class Message`: a type tag and a reference to the mutable payload
dict (`_data`). -/
structure Message where
  _type : String
  _data : Nat

/-- The `type` property. -/
def Message.type (m : Message) : String := m._type

/-- `Message.__init__` allocating a fresh payload object. -/
def Message.new (h : Heap) (message_type : String) (data : JsonValue) :
    Message × Heap :=
  let (h', r) := h.alloc data
  (⟨message_type, r⟩, h')

/-- `Message.from_json`: `Message(message_type, json.loads(json_str))`.
Note there is no check that the parsed top-level value is an object. -/
def Message.from_json (message_type : String) (json_str : String) (h : Heap) :
    Except PyError (Message × Heap) :=
  match jsonLoads json_str with
  | .error e => .error e
  | .ok v =>
      let (m, h') := Message.new h message_type v
      .ok (m, h')

/-- First binding of a key in an association list (keys are unique in
dicts built by `dictSet`, so first is the binding). -/
def lookupKey : List (String × JsonValue) → String → Option JsonValue
  | [], _ => Option.none
  | (k', v) :: rest, k => if k' = k then some v else lookupKey rest k

/-- `Message.__getitem__`: `self._data[key]` — `KeyError` when the payload
is a dict without the key; a non-dict payload (possible after
`from_json` on a non-object document) raises a TypeError kind. -/
def Message.getItem (h : Heap) (m : Message) (key : String) :
    Except PyError JsonValue :=
  match h.get m._data with
  | .obj members =>
      match lookupKey members key with
      | some v => .ok v
      | Option.none => .error (.keyError key)
  | _ => .error (.typeError "payload is not subscriptable by string key")

/-- `Message.__setitem__`: `self._data[key] = value`, mutating the payload
object in the heap (dict case; the only one the code creates itself). -/
def Message.setItem (h : Heap) (m : Message) (key : String) (value : JsonValue) :
    Heap :=
  match h.get m._data with
  | .obj members => h.put m._data (.obj (dictSet members key value))
  | other => h.put m._data other

/-! ### `Context` -/

/-- `class Context`: the fixed simulated time and the three append-only
effect logs.  Timer-log entries are `(opcode, timer_id, delay)` with the
delay kept at its dynamic Python type. -/
structure Context where
  _time : ℚ
  _sent_messages : List (String × String × String)
  _sent_local_messages : List (String × String)
  _timer_actions : List (String × String × PyVal)

/-- `Context.__init__(time)`: binds the time and creates three empty
logs. -/
def Context.init (time : ℚ) : Context :=
  ⟨time, [], [], []⟩

/-- The opcode string the code records for a scheduled timer. -/
def setOpcode : String := "s"

/-- The opcode string the code records for a cancelled timer. -/
def cancelOpcode : String := "c"

/-- `Context.send(msg, to)`: checks `isinstance(to, str)`, then appends
`(msg.type, json.dumps(msg._data), to)` to the send log.  The result pair
is the state at return or at the raise point, plus the raised error if
any. -/
def Context.send (h : Heap) (c : Context) (msg : Message) (to_ : PyVal) :
    Context × Option PyError :=
  match to_ with
  | .str s =>
      ({ c with _sent_messages :=
          c._sent_messages ++ [(msg.type, dumps (h.get msg._data), s)] },
       Option.none)
  | _ =>
      (c, some (.typeError
        ("to argument has to be string, not " ++ to_.typeName)))

/-- `Context.send_local(msg)`: appends `(msg.type, json.dumps(msg._data))`
to the local-delivery log; no argument check. -/
def Context.send_local (h : Heap) (c : Context) (msg : Message) :
    Context × Option PyError :=
  ({ c with _sent_local_messages :=
      c._sent_local_messages ++ [(msg.type, dumps (h.get msg._data))] },
   Option.none)

/-- `Context.set_timer(timer_id, delay)`: checks `isinstance(timer_id, str)`
then `isinstance(delay, (int, float))`, and appends
`("s", timer_id, delay)`. -/
def Context.set_timer (c : Context) (timer_id : PyVal) (delay : PyVal) :
    Context × Option PyError :=
  match timer_id with
  | .str s =>
      if delay.isNumeric then
        ({ c with _timer_actions :=
            c._timer_actions ++ [(setOpcode, s, delay)] },
         Option.none)
      else
        (c, some (.typeError
          ("delay argument has to be int or float, not " ++ delay.typeName)))
  | _ =>
      (c, some (.typeError
        ("timer_id argument has to be str, not " ++ timer_id.typeName)))

/-- `Context.cancel_timer(timer_id)`: checks `isinstance(timer_id, str)`
and appends `("c", timer_id, 0)` unconditionally — no lookup of earlier
`set` entries. -/
def Context.cancel_timer (c : Context) (timer_id : PyVal) :
    Context × Option PyError :=
  match timer_id with
  | .str s =>
      ({ c with _timer_actions :=
          c._timer_actions ++ [(cancelOpcode, s, PyVal.int 0)] },
       Option.none)
  | _ =>
      (c, some (.typeError
        ("timer_id argument has to be str, not " ++ timer_id.typeName)))

/-- `Context.time()`: returns `self._time`. -/
def Context.time (c : Context) : ℚ := c._time

/-- `Context.rand()`: `random.uniform(0, 1)`.  The Python code draws from
the process-global, unseeded `random` module (its own TODO admits the
missing seeding), so the result is a function of the global generator
state only — the `Context` holds no seed or generator (see
`Context.init`).  The global state is modelled as a stream of floats the
generator will emit next. -/
def Context.rand (_c : Context) (globalRandom : List ℚ) : ℚ × List ℚ :=
  (globalRandom.headI, globalRandom.tail)

/-- Draining: after the callback, the engine reads the three logs.  The
heap at drain time is a parameter precisely to state that the drained
entries — serialized strings, not references — do not depend on it. -/
def Context.drain (c : Context) (_hNow : Heap) :
    List (String × String × String) × List (String × String) ×
      List (String × String × PyVal) :=
  (c._sent_messages, c._sent_local_messages, c._timer_actions)

/-! ### Sequences of Context operations -/

/-- One call a node callback can make on its `Context`. -/
inductive Op where
  | send (msg : Message) (to_ : PyVal) : Op
  | sendLocal (msg : Message) : Op
  | setTimer (timer_id : PyVal) (delay : PyVal) : Op
  | cancelTimer (timer_id : PyVal) : Op

/-- Apply one call. -/
def applyOp (h : Heap) (c : Context) : Op → Context × Option PyError
  | .send msg to_ => Context.send h c msg to_
  | .sendLocal msg => Context.send_local h c msg
  | .setTimer timer_id delay => Context.set_timer c timer_id delay
  | .cancelTimer timer_id => Context.cancel_timer c timer_id

/-- Run a sequence of calls (an erroring call leaves the context at its
raise-point state, which `applyOp` already returns). -/
def runOps (h : Heap) (c : Context) : List Op → Context
  | [] => c
  | op :: rest => runOps h (applyOp h c op).1 rest

/-! ### Helper lemmas -/

/-- `Except` success test (used to compare the error behaviour of
`Message.from_json` against `json.loads`). -/
def exceptOk {α : Type} : Except PyError α → Bool
  | .ok _ => true
  | .error _ => false

lemma mem_append_singleton {α : Type} {e a : α} {l : List α}
    (he : e ∈ l ++ [a]) : e ∈ l ∨ e = a := by
  rcases List.mem_append.mp he with h1 | h2
  · exact Or.inl h1
  · exact Or.inr (List.mem_singleton.mp h2)

lemma getD_snoc_length (l : List JsonValue) (a : JsonValue) :
    (l ++ [a]).getD l.length .null = a := by
  induction l with
  | nil => rfl
  | cons x xs ih => simp

/-- No single call changes the bound time. -/
lemma applyOp_time (h : Heap) (c : Context) (op : Op) :
    (applyOp h c op).1._time = c._time := by
  cases op with
  | send msg to_ => cases to_ <;> rfl
  | sendLocal msg => rfl
  | setTimer timer_id delay => cases timer_id <;> cases delay <;> rfl
  | cancelTimer timer_id => cases timer_id <;> rfl

/-- No call sequence changes the bound time. -/
lemma runOps_time (h : Heap) (ops : List Op) :
    ∀ c : Context, (runOps h c ops)._time = c._time := by
  induction ops with
  | nil => intro c; rfl
  | cons op rest ih =>
      intro c
      calc (runOps h ((applyOp h c op).1) rest)._time
          = (applyOp h c op).1._time := ih _
        _ = c._time := applyOp_time h c op

/-- Any timer-log entry after one call was already there or carries one
of the two opcodes the code writes. -/
lemma applyOp_timer_entries (h : Heap) (c : Context) (op : Op) :
    ∀ e ∈ (applyOp h c op).1._timer_actions,
      e ∈ c._timer_actions ∨ e.1 = setOpcode ∨ e.1 = cancelOpcode := by
  cases op with
  | send msg to_ => cases to_ <;> exact fun e he => Or.inl he
  | sendLocal msg => exact fun e he => Or.inl he
  | setTimer timer_id delay =>
      cases timer_id <;> cases delay <;> intro e he <;>
        first
          | exact Or.inl he
          | rcases mem_append_singleton he with h1 | h2
            · exact Or.inl h1
            · rw [h2]; exact Or.inr (Or.inl rfl)
  | cancelTimer timer_id =>
      cases timer_id <;> intro e he <;>
        first
          | exact Or.inl he
          | rcases mem_append_singleton he with h1 | h2
            · exact Or.inl h1
            · rw [h2]; exact Or.inr (Or.inr rfl)

/-- The timer-log shape invariant is preserved by any call sequence. -/
lemma runOps_timer_opcodes (h : Heap) (ops : List Op) :
    ∀ c : Context,
      (∀ e ∈ c._timer_actions, e.1 = setOpcode ∨ e.1 = cancelOpcode) →
      ∀ e ∈ (runOps h c ops)._timer_actions,
        e.1 = setOpcode ∨ e.1 = cancelOpcode := by
  induction ops with
  | nil => exact fun c hc => hc
  | cons op rest ih =>
      intro c hc
      refine ih _ ?_
      intro e he
      rcases applyOp_timer_entries h c op e he with h1 | h2 | h3
      · exact hc e h1
      · exact Or.inl h2
      · exact Or.inr h3

/-! ### The claims -/

/-- C1: snapshot isolation of `send`.  For every message and string
destination, `send` appends exactly one entry
`(msg.type, json.dumps(payload at call time), destination)` to the send
log (leaving everything else in the context unchanged and raising
nothing), and mutating the message's payload afterwards leaves the
drained entries unchanged — the log stores the serialized string, not a
reference into the heap. -/
theorem send_snapshot_isolation (h : Heap) (c : Context) (msg : Message)
    (dest : String) :
    Context.send h c msg (PyVal.str dest) =
      ({ c with _sent_messages :=
          c._sent_messages ++ [(msg.type, dumps (h.get msg._data), dest)] },
       Option.none)
    ∧ ∀ (key : String) (value : JsonValue),
        Context.drain (Context.send h c msg (PyVal.str dest)).1
            (Message.setItem h msg key value) =
          Context.drain (Context.send h c msg (PyVal.str dest)).1 h :=
  ⟨rfl, fun _ _ => rfl⟩

/-- C2: the code draws `rand()` from the process-global unseeded
generator — the result is a function of the global generator state alone
and is not determined by the `Context` (which carries no seed), so two
runs from the same simulation-wide seed need not agree.  This refutes
reproducibility as implemented; the claim describes the intended design
the code's own TODO admits is missing. -/
theorem rand_depends_only_on_global_state :
    (∀ (c₁ c₂ : Context) (g : List ℚ), Context.rand c₁ g = Context.rand c₂ g)
    ∧ ∃ (c : Context) (g₁ g₂ : List ℚ),
        (Context.rand c g₁).1 ≠ (Context.rand c g₂).1 :=
  ⟨fun _ _ _ => rfl,
   Context.init 0, [0], [1], by simp [Context.rand]⟩

/-- C3 counterexample: `"5"` is valid JSON whose top level is not an
object; the claim demands a ParseError-kind failure, but
`Message.from_json` succeeds, because `json.loads` accepts any top-level
JSON value and the code adds no object check. -/
theorem from_json_accepts_nonobject_top_level :
    Message.from_json "t" "5" ⟨[]⟩ = .ok (⟨"t", 0⟩, ⟨[JsonValue.int 5]⟩)
    ∧ jsonLoads "5" = .ok (JsonValue.int 5) :=
  ⟨rfl, rfl⟩

/-- C3 (amended): `from_json` fails (with the ParseError kind, the only
error `json.loads` raises) exactly when `json.loads` fails — a non-object
top level is accepted; and for every text parsing to a JSON object, the
constructed Message reads back exactly the parsed value for each key. -/
theorem from_json_roundtrip (t s : String) (h : Heap) :
    exceptOk (Message.from_json t s h) = exceptOk (jsonLoads s)
    ∧ ∀ (members : List (String × JsonValue)) (k : String) (v : JsonValue),
        jsonLoads s = .ok (.obj members) →
        lookupKey members k = some v →
        Message.from_json t s h =
            .ok (⟨t, h.cells.length⟩, ⟨h.cells ++ [JsonValue.obj members]⟩)
          ∧ Message.getItem ⟨h.cells ++ [JsonValue.obj members]⟩
              ⟨t, h.cells.length⟩ k = .ok v := by
  constructor
  · cases hj : jsonLoads s <;>
      simp [Message.from_json, hj, exceptOk, Message.new, Heap.alloc]
  · intro members k v hparse hlook
    have hcell : Heap.get ⟨h.cells ++ [JsonValue.obj members]⟩ h.cells.length
        = JsonValue.obj members := getD_snoc_length h.cells _
    constructor
    · simp [Message.from_json, hparse, Message.new, Heap.alloc]
    · simp [Message.getItem, hcell, hlook]

/-- C3 witness: the spec's own scenario,
`parse("req", "(\x7b)\"x\": 1(\x7d)")` then `get("x")` returns `1`. -/
theorem from_json_roundtrip_witness :
    Message.getItem ⟨[JsonValue.obj [("x", JsonValue.int 1)]]⟩ ⟨"req", 0⟩ "x"
      = .ok (JsonValue.int 1) := by
  have hmain :=
    (from_json_roundtrip "req" "\x7b\"x\": 1\x7d" ⟨[]⟩).2
      [("x", JsonValue.int 1)] "x" (JsonValue.int 1) (by rfl) (by rfl)
  simpa using hmain.2

/-- C4: `set_timer` with a string id and numeric delay appends exactly
one set-opcode entry `("s", timer_id, delay)` carrying the identical id
and delay, raising nothing; a repeated identical call appends its own
second entry (FIFO order, no deduplication); and every entry of the
timer log of any reachable context carries one of the two opcodes
set (`"s"`) and cancel (`"c"`). -/
theorem set_timer_appends_set_entry (c : Context) (timer_id : String)
    (delay : PyVal) (hnum : delay.isNumeric = true) :
    Context.set_timer c (.str timer_id) delay =
      ({ c with _timer_actions :=
          c._timer_actions ++ [(setOpcode, timer_id, delay)] },
       Option.none)
    ∧ (Context.set_timer
        (Context.set_timer c (.str timer_id) delay).1
        (.str timer_id) delay).1._timer_actions =
      c._timer_actions ++
        [(setOpcode, timer_id, delay), (setOpcode, timer_id, delay)]
    ∧ ∀ (h : Heap) (t : ℚ) (ops : List Op),
        ∀ e ∈ (runOps h (Context.init t) ops)._timer_actions,
          e.1 = setOpcode ∨ e.1 = cancelOpcode := by
  refine ⟨?_, ?_, ?_⟩
  · simp [Context.set_timer, hnum]
  · simp [Context.set_timer, hnum]
  · intro h t ops
    exact runOps_timer_opcodes h ops (Context.init t) (by simp [Context.init])

/-- C4 witness: the spec scenario `setTimer("t1", 5.0)` at a fresh
context. -/
theorem set_timer_appends_set_entry_witness :
    Context.set_timer (Context.init 10) (.str "t1") (PyVal.float 5) =
      ({ Context.init 10 with _timer_actions :=
          (Context.init 10)._timer_actions ++
            [(setOpcode, "t1", PyVal.float 5)] },
       Option.none) :=
  (set_timer_appends_set_entry (Context.init 10) "t1" (PyVal.float 5)
    (by rfl)).1

/-- C5: `cancel_timer` on a string id appends a cancel record
unconditionally — the equation holds for an arbitrary context, in
particular one whose timer log holds no matching set entry; nothing is
raised and nothing else is inspected or changed. -/
theorem cancel_timer_appends_unconditionally (c : Context)
    (timer_id : String) :
    Context.cancel_timer c (.str timer_id) =
      ({ c with _timer_actions :=
          c._timer_actions ++ [(cancelOpcode, timer_id, PyVal.int 0)] },
       Option.none) :=
  rfl

/-- C6: `send` raises the TypeError kind exactly when the destination is
not string-typed: no error is raised iff `isinstance(to, str)` holds, and
on every non-string destination the raised error is a TypeError. -/
theorem send_type_check (h : Heap) (c : Context) (msg : Message)
    (to_ : PyVal) :
    ((Context.send h c msg to_).2 = Option.none ↔ to_.isStr = true)
    ∧ (to_.isStr = false →
        optIsTypeError (Context.send h c msg to_).2 = true) := by
  cases to_ <;> simp [Context.send, PyVal.isStr, optIsTypeError]

/-- C6 witness: an integer destination raises the TypeError kind. -/
theorem send_type_check_witness :
    optIsTypeError
      (Context.send ⟨[]⟩ (Context.init 0) ⟨"m", 0⟩ (PyVal.int 3)).2 = true :=
  (send_type_check ⟨[]⟩ (Context.init 0) ⟨"m", 0⟩ (PyVal.int 3)).2 (by rfl)

/-- C7: `set_timer` raises the TypeError kind exactly when the id is not
string-typed or the delay is not numeric (no error iff both checks pass,
and every raised error is a TypeError), while an out-of-range delay is
not rejected at this layer: any negative float delay is accepted and
logged verbatim. -/
theorem set_timer_type_check (c : Context) (timer_id delay : PyVal) :
    ((Context.set_timer c timer_id delay).2 = Option.none ↔
      (timer_id.isStr && delay.isNumeric) = true)
    ∧ ((timer_id.isStr && delay.isNumeric) = false →
        optIsTypeError (Context.set_timer c timer_id delay).2 = true)
    ∧ ∀ (s : String) (q : ℚ), q < 0 →
        Context.set_timer c (.str s) (.float q) =
          ({ c with _timer_actions :=
              c._timer_actions ++ [(setOpcode, s, PyVal.float q)] },
           Option.none) := by
  refine ⟨?_, ?_, fun s q _ => rfl⟩ <;>
    cases timer_id <;> cases delay <;>
      simp [Context.set_timer, PyVal.isStr, PyVal.isNumeric, optIsTypeError]

/-- C7 witness: a `None` id raises the TypeError kind; a negative delay
is accepted and logged. -/
theorem set_timer_type_check_witness :
    optIsTypeError
      (Context.set_timer (Context.init 0) PyVal.none (PyVal.str "x")).2 = true
    ∧ Context.set_timer (Context.init 0) (.str "t") (PyVal.float (-5)) =
        ({ Context.init 0 with _timer_actions :=
            (Context.init 0)._timer_actions ++
              [(setOpcode, "t", PyVal.float (-5))] },
         Option.none) :=
  ⟨(set_timer_type_check (Context.init 0) PyVal.none (PyVal.str "x")).2.1
      (by rfl),
   (set_timer_type_check (Context.init 0) (.str "t")
      (PyVal.float (-5))).2.2 "t" (-5) (by norm_num)⟩

/-- C8: `time()` returns exactly the construction-time value after any
sequence of `send` / `send_local` / `set_timer` / `cancel_timer` calls
on the context. -/
theorem time_constant_under_ops (t : ℚ) (h : Heap) (ops : List Op) :
    Context.time (runOps h (Context.init t) ops) = t :=
  runOps_time h ops (Context.init t)

/-- C9: error atomicity — whenever `send`, `set_timer` or `cancel_timer`
raises, the context (all three effect logs included) is exactly as it was
before the call: each type check precedes any append. -/
theorem error_atomicity (h : Heap) (c : Context) (msg : Message)
    (to_ timer_id delay : PyVal) :
    ((Context.send h c msg to_).2.isSome = true →
      (Context.send h c msg to_).1 = c)
    ∧ ((Context.set_timer c timer_id delay).2.isSome = true →
        (Context.set_timer c timer_id delay).1 = c)
    ∧ ((Context.cancel_timer c timer_id).2.isSome = true →
        (Context.cancel_timer c timer_id).1 = c) := by
  refine ⟨?_, ?_, ?_⟩
  · cases to_ <;> simp [Context.send]
  · cases timer_id <;> cases delay <;> simp [Context.set_timer, PyVal.isNumeric]
  · cases timer_id <;> simp [Context.cancel_timer]

/-- C9 witness: a failing `send` (integer destination) leaves the fresh
context untouched. -/
theorem error_atomicity_witness :
    (Context.send ⟨[]⟩ (Context.init 0) ⟨"m", 0⟩ (PyVal.int 1)).1 =
      Context.init 0 :=
  (error_atomicity ⟨[]⟩ (Context.init 0) ⟨"m", 0⟩ (PyVal.int 1)
    PyVal.none PyVal.none).1 (by rfl)

/-- C10: a boolean delay passes the numeric check (Python's `bool`
subclasses `int`), so `set_timer` does not raise and appends
`("s", timer_id, b)` verbatim. -/
theorem set_timer_accepts_bool (c : Context) (timer_id : String)
    (b : Bool) :
    Context.set_timer c (.str timer_id) (PyVal.bool b) =
      ({ c with _timer_actions :=
          c._timer_actions ++ [(setOpcode, timer_id, PyVal.bool b)] },
       Option.none) :=
  rfl

end DSLib
